import Mathlib

/-!
Verification development for the `Template_man` template service.

This file gives a shallow embedding, in Lean, of the core of the
`template_api` package — the rendering engine (`renderer.py`), the model
operations (`models.py`), the organization-scoped cache-aside manager
(`views.py`), the in-process mirror cache (`cache_manager.py`) and the
resilient store client (`redis_client.py`) — and proves or refutes the
frozen specification claims about them.

Python strings are embedded as `List Char`; Python values bound to
template variables as the inductive `PyValue`; fallible code returns
`Except`.  Regex-driven passes of the renderer are embedded as explicit
left-to-right scanners that implement exactly the three compiled
patterns of `renderer.py` (`\{\{(\w+)\}\}`, `\{\{#if (\w+)\}\}(.*?)\{\{/if\}\}`,
`\{\{#each (\w+)\}\}(.*?)\{\{/each\}\}`, the latter two with DOTALL and a
lazy body).
-/

namespace TemplateMan

/-- Decidable equality for `Except`, so that concrete runs of the fallible
operations can be checked by `decide`. -/
instance exceptDecEq {ε α : Type} [DecidableEq ε] [DecidableEq α] : DecidableEq (Except ε α)
  | .error e, .error f =>
    if h : e = f then .isTrue (congrArg Except.error h)
    else .isFalse fun hh => h (Except.error.inj hh)
  | .error _, .ok _ => .isFalse fun hh => Except.noConfusion hh
  | .ok _, .error _ => .isFalse fun hh => Except.noConfusion hh
  | .ok x, .ok y =>
    if h : x = y then .isTrue (congrArg Except.ok h)
    else .isFalse fun hh => h (Except.ok.inj hh)

/-- The opening curly brace character, written numerically. -/
def lbrace : Char := Char.ofNat 123

/-- The closing curly brace character, written numerically. -/
def rbrace : Char := Char.ofNat 125

/-- The single-quote character, written numerically. -/
def squote : Char := Char.ofNat 39

/-- Python strings are embedded as lists of characters. -/
abbrev Str := List Char

/-- A `\w` word character of the template regexes: ASCII letters, digits and
underscore (the repository only ever uses ASCII template syntax). -/
def isWordChar (c : Char) : Bool := c.isAlphanum || c = '_'

/-- Greedy `\w+`-style span: the maximal leading run of word characters and
the remainder.  In each of the three patterns the greedy `\w+` is followed by
a literal `}` (never a word character), so the regex engine never backtracks
into the run; taking the maximal run is therefore exact. -/
def spanWord : Str → Str × Str
  | [] => ([], [])
  | c :: cs =>
    if isWordChar c then
      let (w, r) := spanWord cs
      (c :: w, r)
    else ([], c :: cs)

/-- Strip a literal pattern from the front of a string, returning the rest. -/
def stripPre : Str → Str → Option Str
  | [], s => some s
  | _ :: _, [] => none
  | p :: ps, c :: cs => if c = p then stripPre ps cs else none

/-- Split a string at the first occurrence of a literal pattern (the
semantics of a lazy `(.*?)` followed by that literal, under DOTALL):
returns the text before the first occurrence and the text after it. -/
def splitAtSub (pat : Str) : Str → Option (Str × Str)
  | [] =>
    match stripPre pat [] with
    | some r => some ([], r)
    | none => none
  | c :: cs =>
    match stripPre pat (c :: cs) with
    | some r => some ([], r)
    | none =>
      match splitAtSub pat cs with
      | some (b, r) => some (c :: b, r)
      | none => none

/-- A Python value bound to a template variable (`variables` is a JSON-ish
dict in the source: strings, numbers, booleans, `None`, lists, dicts). -/
inductive PyValue where
  | str (s : Str)
  | int (n : Int)
  | bool (b : Bool)
  | list (xs : List PyValue)
  | dict (fields : List (Str × PyValue))
  | pynone

/-- The `variables` dictionary.  Lookup returns the first matching binding,
so overlaying a dict (`{**variables, ...}`) is modelled by prepending the
overriding bindings. -/
abbrev Vars := List (Str × PyValue)

/-- Dictionary lookup (`variables[name]`, guarded by `name in variables`). -/
def lookupVar : Vars → Str → Option PyValue
  | [], _ => none
  | (k, v) :: rest, n => if k = n then some v else lookupVar rest n

mutual

/-- Python `repr` of a value, as used by `str` on lists and dicts. -/
def pyRepr : PyValue → Str
  | .str s => squote :: s ++ [squote]
  | .int n => (toString n).data
  | .bool b => if b then "True".data else "False".data
  | .pynone => "None".data
  | .list xs => '[' :: pyReprList xs ++ [']']
  | .dict fs => lbrace :: pyReprFields fs ++ [rbrace]

/-- `repr` of the elements of a list, comma separated. -/
def pyReprList : List PyValue → Str
  | [] => []
  | x :: rest => pyRepr x ++ (if rest.isEmpty then [] else ", ".data) ++ pyReprList rest

/-- `repr` of the fields of a dict, comma separated. -/
def pyReprFields : List (Str × PyValue) → Str
  | [] => []
  | (k, v) :: rest =>
    squote :: k ++ [squote] ++ ": ".data ++ pyRepr v
      ++ (if rest.isEmpty then [] else ", ".data) ++ pyReprFields rest

end

/-- Python `str` of a value (`value = str(value)` in `_process_variables`). -/
def pyStr : PyValue → Str
  | .str s => s
  | .int n => (toString n).data
  | .bool b => if b then "True".data else "False".data
  | .pynone => "None".data
  | .list xs => pyRepr (.list xs)
  | .dict fs => pyRepr (.dict fs)

/-- Python truthiness of a bound value (`if var_value ...`). -/
def pyTruthy : PyValue → Bool
  | .str s => !s.isEmpty
  | .int n => n != 0
  | .bool b => b
  | .pynone => false
  | .list xs => !xs.isEmpty
  | .dict fs => !fs.isEmpty

/-- The conditional keep-test of `_process_conditionals`:
`var_value and var_value not in ['false', '0', '']`.  The membership test
uses Python `==`, which only a string value can satisfy against the three
string literals. -/
def condValueKeeps (v : PyValue) : Bool :=
  pyTruthy v &&
    (match v with
     | .str s => !(s == "false".data || s == "0".data || s == "".data)
     | _ => true)

/-- `html.escape` of one character (quote=True default: `&`, `<`, `>`,
double and single quotes).  The sequential `str.replace` calls of
`html.escape` are equivalent to this character-wise map because no
replacement text contains a character replaced by a later step other than
the already-produced `&`. -/
def escapeChar (c : Char) : Str :=
  if c = '&' then "&amp;".data
  else if c = '<' then "&lt;".data
  else if c = '>' then "&gt;".data
  else if c = '\"' then "&quot;".data
  else if c = squote then "&#x27;".data
  else [c]

/-- `html.escape` on a string. -/
def htmlEscape (s : Str) : Str := (s.map escapeChar).flatten

/-! ### The three regex scanners

`re.sub` (used for conditionals and loops) scans left to right: at each
position it tries the pattern; on a match it emits the callback's
replacement, does not rescan it, and resumes after the match; otherwise it
advances one character.  `re.finditer` followed by splicing the collected
replacements from the highest span down (used for plain variables) has the
same observable behaviour, because `finditer` yields disjoint ascending
spans, so the end-to-start splices never move an earlier span.  Each pass
is embedded as a scanner producing a list of segments (single literal
characters and matches) and a fold over those segments. -/

/-- Literal fragments of `VARIABLE_PATTERN = \{\{(\w+)\}\}`. -/
def varOpen : Str := [lbrace, lbrace]

/-- The closing `\}\}` of the variable and conditional/loop headers. -/
def varClose : Str := [rbrace, rbrace]

/-- Literal fragments of `CONDITIONAL_PATTERN = \{\{#if (\w+)\}\}(.*?)\{\{/if\}\}`. -/
def openIf : Str := [lbrace, lbrace, '#', 'i', 'f', ' ']

/-- The closing tag of a conditional block. -/
def closeIf : Str := [lbrace, lbrace, '/', 'i', 'f', rbrace, rbrace]

/-- Literal fragments of `LOOP_PATTERN = \{\{#each (\w+)\}\}(.*?)\{\{/each\}\}`. -/
def openEach : Str := [lbrace, lbrace, '#', 'e', 'a', 'c', 'h', ' ']

/-- The closing tag of a loop block. -/
def closeEach : Str := [lbrace, lbrace, '/', 'e', 'a', 'c', 'h', rbrace, rbrace]

/-- Try `VARIABLE_PATTERN` at the current position: `{{`, a non-empty word
run, `}}`.  Returns the captured name and the rest of the input. -/
def matchVarAt (s : Str) : Option (Str × Str) :=
  match stripPre varOpen s with
  | none => none
  | some r1 =>
    let (w, r2) := spanWord r1
    if w.isEmpty then none
    else
      match stripPre varClose r2 with
      | none => none
      | some r3 => some (w, r3)

/-- Try `CONDITIONAL_PATTERN` at the current position: `{{#if `, a
non-empty word run, `}}`, then the lazy body up to the first `{{/if}}`.
Returns the name, the raw body and the rest of the input. -/
def matchCondAt (s : Str) : Option (Str × Str × Str) :=
  match stripPre openIf s with
  | none => none
  | some r1 =>
    let (w, r2) := spanWord r1
    if w.isEmpty then none
    else
      match stripPre varClose r2 with
      | none => none
      | some r3 =>
        match splitAtSub closeIf r3 with
        | none => none
        | some (body, rest) => some (w, body, rest)

/-- Try `LOOP_PATTERN` at the current position, analogously. -/
def matchEachAt (s : Str) : Option (Str × Str × Str) :=
  match stripPre openEach s with
  | none => none
  | some r1 =>
    let (w, r2) := spanWord r1
    if w.isEmpty then none
    else
      match stripPre varClose r2 with
      | none => none
      | some r3 =>
        match splitAtSub closeEach r3 with
        | none => none
        | some (body, rest) => some (w, body, rest)

/-- A segment of the variable pass: a literal character or a `{{name}}` match. -/
inductive VarSeg where
  | lit (c : Char)
  | var (w : Str)

/-- A segment of the conditional pass. -/
inductive CondSeg where
  | lit (c : Char)
  | condIf (w : Str) (body : Str)

/-- A segment of the loop pass. -/
inductive LoopSeg where
  | lit (c : Char)
  | each (w : Str) (body : Str)

/-- Variable-pass scanner.  The fuel argument only bounds recursion depth;
each step consumes at least one input character (see
`matchVarAt_some_length`), so starting the fuel at the input length never
truncates the scan. -/
def scanVarAux : Nat → Str → List VarSeg
  | 0, _ => []
  | _ + 1, [] => []
  | fuel + 1, c :: cs =>
    match matchVarAt (c :: cs) with
    | some (w, r) => .var w :: scanVarAux fuel r
    | none => .lit c :: scanVarAux fuel cs

/-- The segments of `\{\{(\w+)\}\}` over a string, in scan order. -/
def scanVarSegs (s : Str) : List VarSeg := scanVarAux s.length s

/-- Conditional-pass scanner (same fuel discipline). -/
def scanCondAux : Nat → Str → List CondSeg
  | 0, _ => []
  | _ + 1, [] => []
  | fuel + 1, c :: cs =>
    match matchCondAt (c :: cs) with
    | some (w, body, r) => .condIf w body :: scanCondAux fuel r
    | none => .lit c :: scanCondAux fuel cs

/-- The segments of the conditional pattern over a string, in scan order. -/
def scanCondSegs (s : Str) : List CondSeg := scanCondAux s.length s

/-- Loop-pass scanner (same fuel discipline). -/
def scanEachAux : Nat → Str → List LoopSeg
  | 0, _ => []
  | _ + 1, [] => []
  | fuel + 1, c :: cs =>
    match matchEachAt (c :: cs) with
    | some (w, body, r) => .each w body :: scanEachAux fuel r
    | none => .lit c :: scanEachAux fuel cs

/-- The segments of the loop pattern over a string, in scan order. -/
def scanEachSegs (s : Str) : List LoopSeg := scanEachAux s.length s

/-! ### The three passes of `TemplateRenderer.render` -/

/-- `_process_conditionals`, folded over the scanned segments: a bound name
keeps the raw body exactly when `condValueKeeps`; an unbound name drops the
block and records the name as missing. -/
def runCondSegs (vars : Vars) : List CondSeg → Str × List Str
  | [] => ([], [])
  | .lit c :: rest =>
    let (o, m) := runCondSegs vars rest
    (c :: o, m)
  | .condIf w body :: rest =>
    let (o, m) := runCondSegs vars rest
    match lookupVar vars w with
    | some v => (if condValueKeeps v then body ++ o else o, m)
    | none => (o, w :: m)

/-- `TemplateRenderer._process_conditionals`. -/
def processConditionals (content : Str) (vars : Vars) : Str × List Str :=
  runCondSegs vars (scanCondSegs content)

/-- The exceptions the embedded renderer can raise. -/
inductive PyErr where
  | typeErrorMissingArg
  deriving DecidableEq

/-- `_process_loops`, folded over the scanned segments.  For a bound name
that is not a list the expansion is empty (logged, non-fatal).  For a bound
list the source iterates the elements and calls
`TemplateRenderer._process_variables(block_content, item_context)` — with
only two arguments, although `_process_variables(content, variables,
escape_html)` has three required parameters and no default.  The first
iteration therefore raises
`TypeError: _process_variables() missing 1 required positional argument`,
so a non-empty bound list aborts the whole render; only an empty list
yields the empty expansion.  An unbound name expands to nothing and is
recorded as missing. -/
def runEachSegs (vars : Vars) : List LoopSeg → Except PyErr (Str × List Str)
  | [] => .ok ([], [])
  | .lit c :: rest => do
    let (o, m) ← runEachSegs vars rest
    .ok (c :: o, m)
  | .each w _body :: rest =>
    match lookupVar vars w with
    | none => do
      let (o, m) ← runEachSegs vars rest
      .ok (o, w :: m)
    | some (.list items) =>
      match items with
      | [] => do
        let (o, m) ← runEachSegs vars rest
        .ok (o, m)
      | _ :: _ => .error .typeErrorMissingArg
    | some _ => do
      let (o, m) ← runEachSegs vars rest
      .ok (o, m)

/-- `TemplateRenderer._process_loops`. -/
def processLoops (content : Str) (vars : Vars) : Except PyErr (Str × List Str) :=
  runEachSegs vars (scanEachSegs content)

/-- The replacement text for a bound variable in `_process_variables`:
`None` becomes the empty string, the value is stringified, and HTML-escaped
when requested. -/
def substValue (esc : Bool) (v : PyValue) : Str :=
  let v' := match v with | .pynone => PyValue.str [] | x => x
  let s := pyStr v'
  if esc then htmlEscape s else s

/-- The literal text of a `{{name}}` placeholder. -/
def varLit (w : Str) : Str := varOpen ++ w ++ varClose

/-- `_process_variables`, folded over the scanned segments: bound names are
replaced, unbound names are recorded as missing and their placeholder text
is left in place untouched. -/
def runVarSegs (vars : Vars) (esc : Bool) : List VarSeg → Str × List Str
  | [] => ([], [])
  | .lit c :: rest =>
    let (o, m) := runVarSegs vars esc rest
    (c :: o, m)
  | .var w :: rest =>
    let (o, m) := runVarSegs vars esc rest
    match lookupVar vars w with
    | some v => (substValue esc v ++ o, m)
    | none => (varLit w ++ o, w :: m)

/-- `TemplateRenderer._process_variables`. -/
def processVariables (content : Str) (vars : Vars) (esc : Bool) : Str × List Str :=
  runVarSegs vars esc (scanVarSegs content)

/-- `TemplateRenderer.render`: empty content short-circuits; otherwise the
conditional, loop and variable passes run in that order, each consuming the
previous output, and the missing-variable lists are concatenated and
deduplicated (`list(set(missing_vars))`; the set's iteration order is
arbitrary in Python, so only the membership of the returned list is
meaningful). -/
def render (content : Str) (vars : Vars) (escapeHtml : Bool := true) :
    Except PyErr (Str × List Str) :=
  if content.isEmpty then .ok ([], [])
  else
    let (r1, m1) := processConditionals content vars
    match processLoops r1 vars with
    | .error e => .error e
    | .ok (r2, m2) =>
      let (r3, m3) := processVariables r2 vars escapeHtml
      .ok (r3, (m1 ++ m2 ++ m3).dedup)

/-! ### The `Template` model (`models.py`)

A template row.  Presentation-only columns (`name`, `description`,
`metadata`, `created_by`, …) and the usage counters are carried by the
source unchanged through every operation modelled here and affect no
claim, so the record keeps the identity, lifecycle, payload and
organization columns. -/

/-- `Template.STATUS_CHOICES`. -/
inductive TStatus where
  | draft
  | active
  | archived
  deriving DecidableEq

/-- A `Template` row. -/
structure TRec where
  id : Nat
  code : Str
  language : Str
  version : Int
  status : TStatus
  is_default : Bool
  organization : Option Str
  content : Str
  html_content : Str
  subject : Str
  template_type : Str
  tags : List Str
  published_at : Option Nat
  deactivated_at : Option Nat
  deriving DecidableEq

/-- Errors raised by the model layer: `ValidationError` from
`activate`/`archive`, `ValueError` from `get_active_template`. -/
inductive ModelErr where
  | validationError
  | valueError
  deriving DecidableEq

/-- The database as a list of rows.  `.filter(...).first()` with the model's
default ordering `['-version']` returns a row of maximal `version` (the
relative order of equal versions is not specified by the database; this
picks the first such row). -/
def pickNewer (acc : Option TRec) (u : TRec) : Option TRec :=
  match acc with
  | none => some u
  | some a => if u.version > a.version then some u else acc

/-- See `pickNewer`: the first row of maximal version under a fold. -/
def firstMaxVersion (l : List TRec) : Option TRec :=
  l.foldl pickNewer none

/-- The bulk `update` inside `activate`: clear `is_default` on every other
default row of the same (code, language, organization) group
(`filter(code=..., language=..., is_default=True, organization=...)
.exclude(id=...).update(is_default=False)`), applied to one row. -/
def clearOther (t : TRec) (u : TRec) : TRec :=
  if u.code = t.code ∧ u.language = t.language ∧ u.is_default = true ∧
      u.organization = t.organization ∧ u.id ≠ t.id then
    { u with is_default := false }
  else u

/-- The final `self.save()` of `activate`: the row with this id becomes
active, default and published now. -/
def setActiveDefault (t : TRec) (now : Nat) (u : TRec) : TRec :=
  if u.id = t.id then
    { u with status := TStatus.active, published_at := some now, is_default := true }
  else u

/-- `Template.activate`: a no-op returning `False` on an already-active
version; `ValidationError` without an organization; otherwise, inside one
transaction, the bulk `update` (`clearOther`) followed by the save
(`setActiveDefault`). -/
def activateOp (t : TRec) (db : List TRec) (now : Nat) : Except ModelErr (List TRec × Bool) :=
  if t.status = TStatus.active then .ok (db, false)
  else
    match t.organization with
    | none => .error .validationError
    | some _ => .ok ((db.map (clearOther t)).map (setActiveDefault t now), true)

/-- The guard query of `Template.archive`: does another active version of
the same (code, language, organization) group exist
(`filter(code=..., language=..., status=active, organization=...)
.exclude(id=...).exists()`)?  `archive` itself is a no-op returning
`False` on an already-archived version, raises `ValidationError` without
an organization or when archiving a default with this query false (the
row is left untouched), and otherwise saves the row archived, non-default
and deactivated now. -/
def otherActiveExists (t : TRec) (db : List TRec) : Bool :=
  db.any fun u =>
    decide (u.code = t.code ∧ u.language = t.language ∧ u.status = TStatus.active ∧
      u.organization = t.organization ∧ u.id ≠ t.id)

/-- The archived row written by a successful `archive`. -/
def archivedRow (t : TRec) (now : Nat) : TRec :=
  { t with status := TStatus.archived, deactivated_at := some now, is_default := false }

/-- `Template.archive` (see the doc comment above `otherActiveExists` for
the guard query). -/
def archiveOp (t : TRec) (db : List TRec) (now : Nat) : Except ModelErr (TRec × Bool) :=
  if t.status = TStatus.archived then .ok (t, false)
  else
    match t.organization with
    | none => .error .validationError
    | some _ =>
      if t.is_default ∧ otherActiveExists t db = false then .error .validationError
      else .ok (archivedRow t now, true)

/-- The `unique_together = ['code', 'language', 'is_default', 'organization']`
constraint of `Template.Meta` (also present in migration 0002): no two rows
may agree on all four columns — for either value of `is_default`. -/
def uniqueTogether4 : List TRec → Bool
  | [] => true
  | u :: rest =>
    (rest.all fun v =>
      !decide (u.code = v.code ∧ u.language = v.language ∧ u.is_default = v.is_default ∧
        u.organization = v.organization)) &&
    uniqueTogether4 rest

/-- The claim's reading of default uniqueness: among rows of one
(code, language, organization) group, at most one is `is_default = true`;
nothing constrains the non-default rows. -/
def atMostOneDefault : List TRec → Bool
  | [] => true
  | u :: rest =>
    (rest.all fun v =>
      !decide (u.code = v.code ∧ u.language = v.language ∧ u.organization = v.organization ∧
        u.is_default = true ∧ v.is_default = true)) &&
    atMostOneDefault rest

/-- The default rows of one (code, language, organization) group. -/
def defaultsInGroup (db : List TRec) (code lang : Str) (org : Option Str) : List TRec :=
  db.filter fun u =>
    decide (u.code = code ∧ u.language = lang ∧ u.organization = org ∧ u.is_default = true)

/-- The first query of `Template.get_active_template`: the active default
row for (code, language, organization), under the default `-version`
ordering. -/
def activeDefaultQ (db : List TRec) (code lang : Str) (org : Str) : Option TRec :=
  firstMaxVersion (db.filter fun t =>
    decide (t.code = code ∧ t.language = lang ∧ t.status = TStatus.active ∧
      t.is_default = true ∧ t.organization = some org))

/-- The final fallback query of `Template.get_active_template`: every
active row with the code in the organization — no language filter and no
`is_default` filter. -/
def activeCands (db : List TRec) (code : Str) (org : Str) : List TRec :=
  db.filter fun t =>
    decide (t.code = code ∧ t.status = TStatus.active ∧ t.organization = some org)

/-- The English language code. -/
def enStr : Str := "en".data

/-- `Template.get_active_template`: `ValueError` without an organization id
(the source's falsiness test also rejects an empty id, which `Option`
models as `none`); then the exact (code, language) active default, then —
for a non-English request — the (code, en) active default, then the
highest-version active row with the code in the organization regardless of
language and `is_default`. -/
def getActiveTemplate (db : List TRec) (code lang : Str) (orgId : Option Str) :
    Except ModelErr (Option TRec) :=
  match orgId with
  | none => .error .valueError
  | some org =>
    match activeDefaultQ db code lang org with
    | some t => .ok (some t)
    | none =>
      match (if lang ≠ enStr then activeDefaultQ db code enStr org else none) with
      | some t => .ok (some t)
      | none => .ok (firstMaxVersion (activeCands db code org))

/-! ### `TemplateRenderer.render_template` and its retry wrapper -/

/-- The classification of a failed render attempt (the `try` body of
`render_template`, lines 62–110 of `renderer.py`): the queued-too-long
check raises `TimeoutError`; a field with missing variables raises
`VariableMissingError`; the loop pass's `TypeError` (see `runEachSegs`)
propagates as a generic exception. -/
inductive RenderFailure where
  | variableMissing (missing : List Str)
  | timeout
  | typeError
  deriving DecidableEq

/-- The three rendered fields returned on success. -/
structure RenderedFields where
  subject : Str
  content : Str
  html_content : Str
  deriving DecidableEq

/-- One field of `render_template`: an empty field renders to itself
(empty); otherwise `render` runs with HTML escaping, and a non-empty
missing-variable list raises `VariableMissingError` carrying exactly that
field's list (the three source blocks differ only in the message text). -/
def renderField (field : Str) (vars : Vars) : Except RenderFailure Str :=
  if field.isEmpty then .ok []
  else
    match render field vars true with
    | .error _ => .error .typeError
    | .ok (r, miss) => if miss.isEmpty then .ok r else .error (.variableMissing miss)

/-- The `try` body of `render_template`: the timeout guard, then `content`,
then `html_content`, then `subject`, each aborting the whole call on its
own failure (so later fields are not rendered after a failure). -/
def renderFieldsRaw (timedOut : Bool) (t : TRec) (vars : Vars) :
    Except RenderFailure RenderedFields :=
  if timedOut then .error .timeout
  else do
    let rc ← renderField t.content vars
    let rh ← renderField t.html_content vars
    let rs ← renderField t.subject vars
    .ok ⟨rs, rc, rh⟩

/-- The Python class of a raised exception.  In `renderer.py`,
`TimeoutError` and `VariableMissingError` are subclasses of `RenderError`;
`isinstance(e, TimeoutError)` holds only for class `timeoutError`. -/
inductive PyExcKind where
  | renderError
  | timeoutError
  | variableMissingError
  | typeError
  deriving DecidableEq

/-- An exception object: its class and (for the wrapper) the original
failure chained as its cause. -/
structure RaisedError where
  kind : PyExcKind
  cause : RenderFailure
  deriving DecidableEq

/-- `isinstance(e, TimeoutError)` — the predicate of the tenacity
`retry_if_exception` around `render_template`. -/
def isTimeoutInstance (e : RaisedError) : Bool := e.kind = PyExcKind.timeoutError

/-- One undecorated call of `render_template`: the `except Exception`
handler catches every failure of the body, logs it, and raises a fresh
`RenderError(f"Template rendering failed: ...")` — an object of class
exactly `RenderError` — chaining the original exception as cause. -/
def renderTemplateOnce (timedOut : Bool) (t : TRec) (vars : Vars) :
    Except RaisedError RenderedFields :=
  match renderFieldsRaw timedOut t vars with
  | .ok r => .ok r
  | .error f => .error ⟨PyExcKind.renderError, f⟩

/-- The tenacity decorator on `render_template`:
`stop=stop_after_attempt(2)` and
`retry=retry_if_exception(lambda e: isinstance(e, TimeoutError))` — after
a failed attempt, retry only when the raised object is a `TimeoutError`
instance and fewer than 2 attempts have run.  `flags` gives, per attempt,
whether the timeout guard fires on that attempt.  Returns the number of
attempts made and the final outcome.  The fuel (first argument of the
auxiliary) starts at the attempt cap and only bounds recursion depth. -/
def renderRetryAux (t : TRec) (vars : Vars) :
    Nat → List Bool → Nat → Nat × Except RaisedError RenderedFields
  | 0, flags, attempt => (attempt, renderTemplateOnce (flags.headD false) t vars)
  | fuel + 1, flags, attempt =>
    match renderTemplateOnce (flags.headD false) t vars with
    | .ok r => (attempt, .ok r)
    | .error e =>
      if isTimeoutInstance e ∧ attempt < 2 then
        renderRetryAux t vars fuel flags.tail (attempt + 1)
      else (attempt, .error e)

/-- The decorated `render_template` entry point. -/
def renderTemplateCall (flags : List Bool) (t : TRec) (vars : Vars) :
    Nat × Except RaisedError RenderedFields :=
  renderRetryAux t vars 2 flags 1

/-! ### The organization-scoped cache-aside manager (`views.py`) -/

/-- The dictionary produced by the `views.py`
`TemplateCacheManager._serialize_template` — it carries an
`organization_id` (`str(template.organization.id)`; every record
serialized here comes from `get_active_template` filtered by a non-null
organization, so the `Option` default never fires).  Presentation-only
keys are omitted as above. -/
structure TDv where
  id : Nat
  code : Str
  language : Str
  version : Int
  status : TStatus
  is_default : Bool
  content : Str
  html_content : Str
  subject : Str
  organization_id : Str
  deriving DecidableEq

/-- Serialization of a row by the scoped manager. -/
def serializeViews (t : TRec) : TDv :=
  { id := t.id, code := t.code, language := t.language, version := t.version,
    status := t.status, is_default := t.is_default, content := t.content,
    html_content := t.html_content, subject := t.subject,
    organization_id := t.organization.getD [] }

/-- The remote key/value store seen through `setex`/`get` (JSON
round-trips are identities here; TTL expiry is not modelled — no claim is
about expiry).  Writes prepend; lookup takes the first match, so a write
shadows older entries exactly as `SETEX` overwrites. -/
abbrev KVStore := List (Str × TDv)

/-- First-match lookup in an association list. -/
def lookupKV {α : Type} : List (Str × α) → Str → Option α
  | [], _ => none
  | (k, v) :: rest, n => if k = n then some v else lookupKV rest n

/-- `setex`: overwrite the value under a key. -/
def setKV (st : KVStore) (k : Str) (v : TDv) : KVStore := (k, v) :: st

/-- `_make_template_cache_key`: `template:{organization_id}:{code}:{language}`. -/
def mkTemplateKey (org code lang : Str) : Str :=
  "template:".data ++ org ++ [':'] ++ code ++ [':'] ++ lang

/-- The `views.py` `TemplateCacheManager.get_template`: reject a missing
organization id (log and return `None`); else consult the store under the
organization-scoped key; on miss (or with `use_cache=False`) query
`Template.get_active_template`, serialize, repopulate the store (only with
`use_cache=True`) and return; absence and database errors return `None`
without caching. -/
def viewsGetTemplate (db : List TRec) (cache : KVStore) (code lang : Str)
    (orgId : Option Str) (useCache : Bool) : Option TDv × KVStore :=
  match orgId with
  | none => (none, cache)
  | some org =>
    let key := mkTemplateKey org code lang
    match (if useCache then lookupKV cache key else none) with
    | some td => (some td, cache)
    | none =>
      match getActiveTemplate db code lang (some org) with
      | .error _ => (none, cache)
      | .ok none => (none, cache)
      | .ok (some t) =>
        let td := serializeViews t
        (some td, if useCache then setKV cache key td else cache)

/-! ### The in-process mirror cache (`cache_manager.py`) -/

/-- The dictionary produced by the `cache_manager.py`
`TemplateCacheManager._serialize_template`.  This serializer has **no
organization field at all** (its key list ends at
`average_render_time`); presentation-only keys are again omitted. -/
structure TDm where
  id : Nat
  code : Str
  language : Str
  version : Int
  status : TStatus
  is_default : Bool
  content : Str
  html_content : Str
  subject : Str
  template_type : Str
  tags : List Str
  deriving DecidableEq

/-- Serialization of a row by the mirror cache. -/
def serializeMirror (t : TRec) : TDm :=
  { id := t.id, code := t.code, language := t.language, version := t.version,
    status := t.status, is_default := t.is_default, content := t.content,
    html_content := t.html_content, subject := t.subject,
    template_type := t.template_type, tags := t.tags }

/-- The three indexes of the mirror cache (`templates`,
`templates_by_type`, `templates_by_tag`). -/
structure MirrorState where
  templates : List (Str × TDm)
  byType : List (Str × List TDm)
  byTag : List (Str × List TDm)

/-- The empty mirror state. -/
def emptyMirror : MirrorState := ⟨[], [], []⟩

/-- The mirror's cache key: `f"{code}:{language}"` — no organization. -/
def mirrorKey (code lang : Str) : Str := code ++ [':'] ++ lang

/-- `defaultdict(list)[k].append(v)`. -/
def appendIndex (idx : List (Str × List TDm)) (k : Str) (v : TDm) :
    List (Str × List TDm) :=
  match idx with
  | [] => [(k, [v])]
  | (k0, vs) :: rest =>
    if k0 = k then (k0, vs ++ [v]) :: rest else (k0, vs) :: appendIndex rest k v

/-- What the mirror's `get_template` returns: the cached dictionary on a
hit, but the ORM model instance itself on the database-fill path (the
source returns `template`, which on that path is the model instance, not
`template_data`). -/
inductive MirrorRet where
  | fromCache (td : TDm)
  | fromDb (t : TRec)
  deriving DecidableEq

/-- One pass of the mirror's `get_template` without the English fallback:
look up `f"{code}:{language}"` in the in-process dict; on miss query
`Template.objects.filter(code=..., language=..., status=active,
is_default=True).first()` — **no organization filter** — and on a find,
insert the serialized row into all three indexes. -/
def mirrorGetOnce (db : List TRec) (st : MirrorState) (code lang : Str) :
    Option MirrorRet × MirrorState :=
  let key := mirrorKey code lang
  match lookupKV st.templates key with
  | some td => (some (.fromCache td), st)
  | none =>
    match firstMaxVersion (db.filter fun t =>
        decide (t.code = code ∧ t.language = lang ∧ t.status = TStatus.active ∧
          t.is_default = true)) with
    | some t =>
      let td := serializeMirror t
      (some (.fromDb t),
        { templates := (key, td) :: st.templates,
          byType := appendIndex st.byType t.template_type td,
          byTag := t.tags.foldl (fun idx tg => appendIndex idx tg td) st.byTag })
    | none => (none, st)

/-- The `cache_manager.py` `TemplateCacheManager.get_template(code,
language='en')` — note the signature takes **no organization id**.  When
the lookup (including its database fill) finds nothing and the language is
not English, the source re-enters `get_template(code, 'en')`; that inner
call cannot recurse again, so the recursion is unrolled here into a second
single pass. -/
def mirrorGetTemplate (db : List TRec) (st : MirrorState) (code lang : Str) :
    Option MirrorRet × MirrorState :=
  match mirrorGetOnce db st code lang with
  | (some r, st1) => (some r, st1)
  | (none, st1) =>
    if lang ≠ enStr then mirrorGetOnce db st1 code enStr else (none, st1)

/-! ### The resilient store client (`redis_client.py`) -/

/-- The connection-management state of `RedisClient`: the `_is_connected`
flag and the `_connection_errors` counter.  (`_last_error_time` is only
logged and never read.) -/
structure RCState where
  is_connected : Bool
  connection_errors : Nat
  deriving DecidableEq

/-- A failure of `get_connection`: `connectionError` stands for
`redis.ConnectionError`/`redis.TimeoutError` raised by a failed ping;
`initFailed` for the module's own `RedisConnectionError` raised when
`_initialize` fails. -/
inductive RedisErr where
  | connectionError
  | initFailed
  deriving DecidableEq

/-- `_handle_connection_error`: bump the counter; at 5 or more errors mark
the client disconnected (the "circuit breaker" branch).  Nothing ever
decrements or resets the counter. -/
def handleConnectionError (s : RCState) : RCState :=
  let s1 : RCState := { s with connection_errors := s.connection_errors + 1 }
  if s1.connection_errors ≥ 5 then { s1 with is_connected := false } else s1

/-- `_initialize`: build a fresh pool (no network traffic by itself) and
test it with a ping.  Success sets `_is_connected = True` — and leaves the
error counter untouched.  Failure raises `RedisConnectionError`
(`initFailed`) with `_is_connected = False`; the counter is again
untouched (`_handle_connection_error` is not called on this path). -/
def initializeStep (s : RCState) (ping : Bool) : Except RedisErr Unit × RCState :=
  if ping then (.ok (), { s with is_connected := true })
  else (.error .initFailed, { s with is_connected := false })

/-- One undecorated attempt of `get_connection`, consuming ping outcomes
from the environment `pings` starting at index `i` (each consumed index is
one real liveness probe against the store).  A client marked disconnected
first re-runs `_initialize`; then the checked-out connection is validated
with `conn.ping()`, whose failure sets `_is_connected = False`, runs
`_handle_connection_error` and re-raises. -/
def getConnAttempt (pings : Nat → Bool) (s : RCState) (i : Nat) :
    Except RedisErr Unit × RCState × Nat :=
  if s.is_connected then
    if pings i then (.ok (), s, i + 1)
    else (.error .connectionError,
      handleConnectionError { s with is_connected := false }, i + 1)
  else
    match initializeStep s (pings i) with
    | (.error e, s1) => (.error e, s1, i + 1)
    | (.ok _, s1) =>
      if pings (i + 1) then (.ok (), s1, i + 2)
      else (.error .connectionError,
        handleConnectionError { s1 with is_connected := false }, i + 2)

/-- The tenacity decorator on `get_connection`:
`stop=stop_after_attempt(3)`,
`retry=retry_if_exception_type((redis.ConnectionError, redis.TimeoutError))`
— so only `connectionError` is retried, and the module's own
`RedisConnectionError` from a failed re-initialization is surfaced at
once.  The first argument is the number of retries still allowed. -/
def getConnRetry (pings : Nat → Bool) :
    Nat → RCState → Nat → Except RedisErr Unit × RCState × Nat
  | 0, s, i => getConnAttempt pings s i
  | n + 1, s, i =>
    match getConnAttempt pings s i with
    | (.error .connectionError, s1, j) => getConnRetry pings n s1 j
    | r => r

/-- The decorated `get_connection` (up to 3 attempts). -/
def getConnection (pings : Nat → Bool) (s : RCState) (i : Nat) :
    Except RedisErr Unit × RCState × Nat :=
  getConnRetry pings 2 s i

/-! ### Definitions used by the claim statements -/

/-- Substring test, via the first-occurrence splitter: `pat` occurs
somewhere in `s`. -/
def containsSub (pat s : Str) : Bool := (splitAtSub pat s).isSome

/-- The variable names captured by the variable-pass scanner, in order. -/
def varSegNames : List VarSeg → List Str
  | [] => []
  | .lit _ :: rest => varSegNames rest
  | .var w :: rest => w :: varSegNames rest

/-- The names of the plain `{{name}}` placeholders of a string, in scan
order. -/
def varNamesOf (content : Str) : List Str := varSegNames (scanVarSegs content)

/-- A well-formed conditional block `{{#if name}}body{{/if}}`. -/
def condBlock (name body : Str) : Str :=
  openIf ++ name ++ varClose ++ body ++ closeIf

/-- A string free of `:` — organization ids, template codes and language
codes in the repository (UUIDs, `welcome_email`, `en`, …) never contain
the key separator. -/
def NoColon (s : Str) : Prop := (':' : Char) ∉ s

/-- Every entry of the scoped store reachable under an organization's key
belongs to that organization.  (Quantified over separator-free components,
which make `mkTemplateKey` injective.) -/
def cacheScoped (cache : KVStore) : Prop :=
  ∀ org code lang td, NoColon org → NoColon code → NoColon lang →
    lookupKV cache (mkTemplateKey org code lang) = some td →
    td.organization_id = org

/-- `Render("Hi {{name}}", {})` — the spec's missing-variable example. -/
def hiNameTemplate : Str := "Hi \x7b\x7bname\x7d\x7d".data

/-- `"{{#if flag}}X{{/if}}"` — the spec's conditional example. -/
def ifFlagTemplate : Str := "\x7b\x7b#if flag\x7d\x7dX\x7b\x7b/if\x7d\x7d".data

/-- `"{{#each items}}{{item}},{{/each}}"` — the spec's loop example. -/
def eachItemsTemplate : Str :=
  "\x7b\x7b#each items\x7d\x7d\x7b\x7bitem\x7d\x7d,\x7b\x7b/each\x7d\x7d".data

/-- An active default `welcome`/`en` template of organization `org-B`. -/
def recB : TRec :=
  ⟨2, "welcome".data, "en".data, 1, .active, true, some "org-B".data,
    "c".data, [], [], "email".data, [], none, none⟩

/-- An active, non-default French version 3 of `welcome` in `o1` — the
only active row of its code. -/
def sampleFr : TRec :=
  ⟨7, "welcome".data, "fr".data, 3, .active, false, some "o1".data,
    "c".data, [], [], "email".data, [], none, none⟩

/-- A template whose three fields each reference a different unbound
variable. -/
def sampleAllMissing : TRec :=
  ⟨3, "t".data, "en".data, 1, .draft, false, some "o".data,
    "\x7b\x7ba\x7d\x7d".data, "\x7b\x7bb\x7d\x7d".data, "\x7b\x7bc\x7d\x7d".data,
    "email".data, [], none, none⟩

/-- A template with clean content but unbound variables in `html_content`
and `subject`. -/
def sampleHtmlMissing : TRec :=
  ⟨4, "t".data, "en".data, 1, .draft, false, some "o".data,
    "x".data, "\x7b\x7bb\x7d\x7d".data, "\x7b\x7bc\x7d\x7d".data,
    "email".data, [], none, none⟩

/-- A plain template with static content. -/
def sampleT : TRec :=
  ⟨1, "t".data, "en".data, 1, .draft, false, some "o".data,
    "hello".data, [], [], "email".data, [], none, none⟩

/-- The active default version 1 of a `w`/`en` group in organization `o`. -/
def vDefault : TRec :=
  ⟨1, "w".data, "en".data, 1, .active, true, some "o".data,
    "c".data, [], [], "email".data, [], none, none⟩

/-- A non-default draft version 2 of the same group. -/
def vDraft2 : TRec :=
  ⟨2, "w".data, "en".data, 2, .draft, false, some "o".data,
    "c".data, [], [], "email".data, [], none, none⟩

/-- A non-default draft version 3 of the same group. -/
def vDraft3 : TRec :=
  ⟨3, "w".data, "en".data, 3, .draft, false, some "o".data,
    "c".data, [], [], "email".data, [], none, none⟩

/-! ## Shared lemmas -/

theorem pickNewer_isSome (acc : Option TRec) (u : TRec) : (pickNewer acc u).isSome := by
  cases acc with
  | none => rfl
  | some a =>
    unfold pickNewer
    by_cases h : u.version > a.version <;> simp [h]

theorem foldl_pickNewer_isSome :
    ∀ (l : List TRec) (acc : Option TRec), acc.isSome → (l.foldl pickNewer acc).isSome := by
  intro l
  induction l with
  | nil => intro acc h; exact h
  | cons u t ih => intro acc _; exact ih (pickNewer acc u) (pickNewer_isSome acc u)

theorem firstMaxVersion_isSome (l : List TRec) (h : l ≠ []) :
    (firstMaxVersion l).isSome := by
  cases l with
  | nil => exact absurd rfl h
  | cons u t =>
    unfold firstMaxVersion
    exact foldl_pickNewer_isSome t (pickNewer none u) (pickNewer_isSome none u)

theorem foldl_pickNewer_mem :
    ∀ (l : List TRec) (acc : Option TRec) (r : TRec),
      l.foldl pickNewer acc = some r → acc = some r ∨ r ∈ l := by
  intro l
  induction l with
  | nil => intro acc r h; exact .inl h
  | cons u t ih =>
    intro acc r h
    rcases ih (pickNewer acc u) r h with h1 | h2
    · cases acc with
      | none =>
        simp only [pickNewer] at h1
        injection h1 with h1'
        subst h1'
        exact .inr (List.mem_cons_self u t)
      | some a =>
        simp only [pickNewer] at h1
        by_cases hv : u.version > a.version
        · rw [if_pos hv] at h1
          injection h1 with h1'
          subst h1'
          exact .inr (List.mem_cons_self u t)
        · rw [if_neg hv] at h1
          exact .inl h1
    · exact .inr (List.mem_cons_of_mem u h2)

theorem firstMaxVersion_mem (l : List TRec) (r : TRec) :
    firstMaxVersion l = some r → r ∈ l := by
  intro h
  rcases foldl_pickNewer_mem l none r h with h1 | h2
  · exact absurd h1 (by simp)
  · exact h2

theorem foldl_pickNewer_max :
    ∀ (l : List TRec) (acc : Option TRec) (r : TRec),
      l.foldl pickNewer acc = some r →
      (∀ a, acc = some a → a.version ≤ r.version) ∧
        (∀ u ∈ l, u.version ≤ r.version) := by
  intro l
  induction l with
  | nil =>
    intro acc r h
    refine ⟨fun a ha => ?_, fun u hu => absurd hu (List.not_mem_nil u)⟩
    rw [ha] at h
    injection h with h'
    rw [h']
  | cons u t ih =>
    intro acc r h
    obtain ⟨hacc, hmem⟩ := ih (pickNewer acc u) r h
    have hu : u.version ≤ r.version := by
      cases acc with
      | none => exact hacc u rfl
      | some a =>
        by_cases hv : u.version > a.version
        · exact hacc u (by simp only [pickNewer]; rw [if_pos hv])
        · exact le_trans (not_lt.mp hv) (hacc a (by simp only [pickNewer]; rw [if_neg hv]))
    refine ⟨fun a ha => ?_, fun v hv => ?_⟩
    · subst ha
      by_cases hv : u.version > a.version
      · exact le_trans (le_of_lt hv) hu
      · exact hacc a (by simp only [pickNewer]; rw [if_neg hv])
    · rcases List.mem_cons.mp hv with h1 | h2
      · subst h1; exact hu
      · exact hmem v h2

theorem firstMaxVersion_max (l : List TRec) (r : TRec) :
    firstMaxVersion l = some r → ∀ u ∈ l, u.version ≤ r.version :=
  fun h => (foldl_pickNewer_max l none r h).2

theorem renderTemplateOnce_error_kind (b : Bool) (t : TRec) (vars : Vars) (e : RaisedError) :
    renderTemplateOnce b t vars = .error e → e.kind = PyExcKind.renderError := by
  intro h
  unfold renderTemplateOnce at h
  cases hf : renderFieldsRaw b t vars with
  | ok r => rw [hf] at h; exact absurd h (by simp)
  | error f =>
    rw [hf] at h
    injection h with h'
    rw [← h']

/-! ## The claims -/

/-- C3: the spec's loop-expansion example
`Render("{{#each items}}{{item}},{{/each}}", {"items": ["a","b"]})` is
claimed to return `"a,b,"`.  In the source, `_process_loops` calls
`_process_variables(block_content, item_context)` without the required
third `escape_html` argument, so the first iteration over a bound
non-empty list raises `TypeError` and the whole render fails; the
non-sequence and empty-list cases (no iteration, hence no bad call) behave
as specified: empty expansion, with the name recorded as missing only
when it is unbound. -/
theorem loop_expansion_type_error :
    render eachItemsTemplate
        [("items".data, PyValue.list [PyValue.str "a".data, PyValue.str "b".data])] =
      .error .typeErrorMissingArg ∧
    render eachItemsTemplate [("items".data, PyValue.str "zz".data)] = .ok ([], []) ∧
    render eachItemsTemplate [("items".data, PyValue.list [])] = .ok ([], []) ∧
    render eachItemsTemplate [] = .ok ([], ["items".data]) := by
  refine ⟨by decide, by decide, by decide, by decide⟩

/-- C4: the tenacity decorator on `render_template` is configured with
`stop_after_attempt(2)` and `retry_if_exception(isinstance TimeoutError)`,
but the function's own `except Exception` handler re-raises every failure
— the timeout included — as a fresh `RenderError`, which is not a
`TimeoutError` instance.  The retry predicate therefore never matches:
every call makes exactly one attempt, whatever the error kind, and in
particular a first-attempt timeout is surfaced (wrapped in `RenderError`)
instead of being retried. -/
theorem render_timeout_never_retried :
    (∀ (flags : List Bool) (t : TRec) (vars : Vars),
      (renderTemplateCall flags t vars).1 = 1) ∧
    renderTemplateCall [true, false] sampleT [] =
      (1, .error ⟨PyExcKind.renderError, RenderFailure.timeout⟩) := by
  constructor
  · intro flags t vars
    unfold renderTemplateCall renderRetryAux
    cases h : renderTemplateOnce (flags.headD false) t vars with
    | ok r => simp
    | error e =>
      have hk := renderTemplateOnce_error_kind _ _ _ _ h
      simp [isTimeoutInstance, hk]
  · decide

/-- C2 (counterexample): with all three fields referencing distinct
unbound variables, `render_template` raises on `content` alone: the
carried missing set is `{a}`, not the union `{a, b, c}` — in particular
`b` is missing from `html_content`'s own render but absent from the
raised set. -/
theorem render_template_union_counterexample :
    renderFieldsRaw false sampleAllMissing [] =
      .error (.variableMissing ["a".data]) ∧
    render sampleAllMissing.html_content [] true =
      .ok (varLit "b".data, ["b".data]) ∧
    "b".data ∉ (["a".data] : List Str) := by
  refine ⟨by decide, by decide, by decide⟩

/-- C2 (amended): `render_template` renders `content`, then
`html_content`, then `subject`, and raises `VariableMissingError` at the
first field whose missing set is non-empty, carrying exactly that field's
missing set; later fields (here `subject`, arbitrary) contribute nothing.
Stated for the first failing field being `html_content`. -/
theorem render_template_first_missing_field
    (t : TRec) (vars : Vars) (rc rh : Str) (mh : List Str)
    (hc : renderField t.content vars = .ok rc)
    (hh : render t.html_content vars true = .ok (rh, mh))
    (hmh : mh ≠ [])
    (hhn : t.html_content.isEmpty = false) :
    renderFieldsRaw false t vars = .error (.variableMissing mh) := by
  have hmh' : mh.isEmpty = false := by
    cases mh with
    | nil => exact absurd rfl hmh
    | cons a as => rfl
  unfold renderFieldsRaw renderField
  rw [if_neg (by simp)]
  unfold renderField at hc
  simp only [bind, Except.bind, hc, hhn, Bool.false_eq_true, if_false, hh, hmh']

/-- Witness for C2's amended theorem at a concrete template: content is
clean, `html_content` misses `b`, `subject` misses `c`; the raised set is
exactly `{b}`. -/
theorem render_template_first_missing_field_witness :
    renderFieldsRaw false sampleHtmlMissing [] =
      .error (.variableMissing ["b".data]) :=
  render_template_first_missing_field sampleHtmlMissing [] "x".data
    (varLit "b".data) ["b".data] (by decide) (by decide) (by decide) (by decide)

/-- C9: archiving behaviour of a live (not yet archived) version that
belongs to an organization — the two situations the claim describes:
archiving the current default with no other active version of its
(code, language, organization) group raises `ValidationError` and leaves
the row untouched (the operation aborts before any mutation); archiving a
non-default version, or a default with another active version present,
succeeds, returns `True`, and saves the row with status `archived`,
`is_default = false` and `deactivated_at = now`. -/
theorem archive_default_guard (t : TRec) (db : List TRec) (now : Nat)
    (hst : t.status ≠ TStatus.archived)
    (horg : t.organization ≠ none) :
    ((t.is_default = true ∧ otherActiveExists t db = false) →
      archiveOp t db now = .error .validationError) ∧
    ((t.is_default = false ∨ otherActiveExists t db = true) →
      archiveOp t db now =
        .ok ({ t with status := TStatus.archived, is_default := false, deactivated_at := some now }, true)) := by
  constructor
  · rintro ⟨hd, hoa⟩
    cases ho : t.organization with
    | none => exact absurd ho horg
    | some o =>
      simp only [archiveOp, if_neg hst, ho]
      rw [if_pos ⟨hd, hoa⟩]
  · intro h
    cases ho : t.organization with
    | none => exact absurd ho horg
    | some o =>
      have hcond : ¬(t.is_default = true ∧ otherActiveExists t db = false) := by
        rintro ⟨hd, hoa⟩
        rcases h with h | h
        · rw [hd] at h; exact absurd h (by simp)
        · rw [hoa] at h; exact absurd h (by simp)
      simp only [archiveOp, if_neg hst, ho, if_neg hcond, archivedRow]

/-- Witness for C9 at concrete rows: archiving the default `vDefault`
while only drafts accompany it raises `ValidationError`; archiving the
non-default `vDraft2` succeeds with the expected saved row. -/
theorem archive_default_guard_witness :
    archiveOp vDefault [vDefault, vDraft2, vDraft3] 50 = .error .validationError ∧
    archiveOp vDraft2 [vDefault, vDraft2, vDraft3] 50 =
      .ok ({ vDraft2 with status := TStatus.archived, is_default := false, deactivated_at := some 50 }, true) :=
  ⟨(archive_default_guard vDefault [vDefault, vDraft2, vDraft3] 50
      (by decide) (by decide)).1 (by decide),
   (archive_default_guard vDraft2 [vDefault, vDraft2, vDraft3] 50
      (by decide) (by decide)).2 (by decide)⟩

/-- C10: when neither the (code, language) nor the (code, en) active
default exists for the organization, `get_active_template` does not give
up: it returns an active row with that code and organization of maximal
version — regardless of that row's language and of `is_default` — and
returns absent only when the organization has no active row with the code
at all.  The concrete conjunct exhibits a lookup for `de` answered by a
non-default `fr` row. -/
theorem implicit_fallback_highest_version :
    (∀ (db : List TRec) (code lang org : Str),
      activeDefaultQ db code lang org = none →
      activeDefaultQ db code enStr org = none →
      activeCands db code org ≠ [] →
      ∃ r, getActiveTemplate db code lang (some org) = .ok (some r) ∧
        r ∈ activeCands db code org ∧
        ∀ u ∈ activeCands db code org, u.version ≤ r.version) ∧
    (getActiveTemplate [sampleFr] "welcome".data "de".data (some "o1".data) =
        .ok (some sampleFr) ∧
      sampleFr.language ≠ "de".data ∧ sampleFr.language ≠ enStr ∧
      sampleFr.is_default = false) := by
  constructor
  · intro db code lang org h1 h2 hne
    obtain ⟨r, hr⟩ : ∃ r, firstMaxVersion (activeCands db code org) = some r := by
      cases hfm : firstMaxVersion (activeCands db code org) with
      | none =>
        have := firstMaxVersion_isSome (activeCands db code org) hne
        rw [hfm] at this
        exact absurd this (by simp)
      | some r => exact ⟨r, rfl⟩
    refine ⟨r, ?_, firstMaxVersion_mem _ _ hr, firstMaxVersion_max _ _ hr⟩
    by_cases hl : lang ≠ enStr
    · simp only [getActiveTemplate, h1, if_pos hl, h2, hr]
    · simp only [getActiveTemplate, h1, if_neg hl, hr]
  · refine ⟨by decide, by decide, by decide, by decide⟩

theorem handleConnectionError_counter (s : RCState) :
    s.connection_errors ≤ (handleConnectionError s).connection_errors := by
  unfold handleConnectionError
  by_cases h : 5 ≤ s.connection_errors + 1
  · rw [if_pos h]; exact Nat.le_succ _
  · rw [if_neg h]; exact Nat.le_succ _

theorem getConnAttempt_counter (pings : Nat → Bool) (s : RCState) (i : Nat) :
    s.connection_errors ≤ (getConnAttempt pings s i).2.1.connection_errors := by
  by_cases hc : s.is_connected = true
  · by_cases hp : pings i = true
    · simp [getConnAttempt, hc, hp]
    · simp [getConnAttempt, hc, hp]
      exact handleConnectionError_counter ⟨false, s.connection_errors⟩
  · by_cases hp : pings i = true
    · by_cases hp2 : pings (i + 1) = true
      · simp [getConnAttempt, initializeStep, hc, hp, hp2]
      · simp [getConnAttempt, initializeStep, hc, hp, hp2]
        exact handleConnectionError_counter ⟨false, s.connection_errors⟩
    · simp [getConnAttempt, initializeStep, hc, hp]

/-- C6 (counterexample): with the breaker "open" — five connection errors
recorded and `_is_connected = False` — and the network healthy again, the
next `get_connection` call does not fail fast with a circuit-open error:
it re-initializes, performs two fresh pings (index 0 → 2: real connection
attempts), returns a connection successfully, and the error counter is
still 5 afterwards — the successful probe resets nothing. -/
theorem circuit_breaker_counterexample :
    getConnection (fun _ => true) ⟨false, 5⟩ 0 = (.ok (), ⟨true, 5⟩, 2) := by
  decide

/-- C6 (amended): what the client actually does.  (1) once the counter
reaches 5 the error handler marks the client disconnected; (2) while
disconnected, a call first re-initializes; if that probe ping fails, the
call raises the distinguishable `RedisConnectionError` (`initFailed`)
immediately — the tenacity wrapper does not retry it; (3) if the probe
and the checkout ping succeed, the call returns a connection and the
client is marked connected again — with the error counter untouched;
(4) the counter is never reset: it is monotone across any call. -/
theorem circuit_breaker_amended :
    (∀ s : RCState, 5 ≤ s.connection_errors + 1 →
      (handleConnectionError s).is_connected = false) ∧
    (∀ (pings : Nat → Bool) (s : RCState) (i : Nat),
      s.is_connected = false → pings i = false →
      getConnection pings s i = (.error .initFailed, { s with is_connected := false }, i + 1)) ∧
    (∀ (pings : Nat → Bool) (s : RCState) (i : Nat),
      s.is_connected = false → pings i = true → pings (i + 1) = true →
      getConnection pings s i = (.ok (), { s with is_connected := true }, i + 2)) ∧
    (∀ (pings : Nat → Bool) (n : Nat) (s : RCState) (i : Nat),
      s.connection_errors ≤ (getConnRetry pings n s i).2.1.connection_errors) := by
  refine ⟨?_, ?_, ?_, ?_⟩
  · intro s h
    unfold handleConnectionError
    rw [if_pos h]
  · intro pings s i h1 h2
    simp [getConnection, getConnRetry, getConnAttempt, initializeStep, h1, h2]
  · intro pings s i h1 h2 h3
    simp [getConnection, getConnRetry, getConnAttempt, initializeStep, h1, h2, h3]
  · intro pings n
    induction n with
    | zero => intro s i; exact getConnAttempt_counter pings s i
    | succ n ih =>
      intro s i
      have hm := getConnAttempt_counter pings s i
      unfold getConnRetry
      rcases hA : getConnAttempt pings s i with ⟨e, s1, j⟩
      rw [hA] at hm
      cases e with
      | ok u => exact hm
      | error er =>
        cases er with
        | connectionError => exact le_trans hm (ih s1 j)
        | initFailed => exact hm

/-- Witness for C6's amended theorem at concrete states: an open client
with a dead store raises `initFailed` after one probe; an open client
with a healthy store is restored with the counter untouched. -/
theorem circuit_breaker_amended_witness :
    getConnection (fun _ => false) ⟨false, 5⟩ 0 = (.error .initFailed, ⟨false, 5⟩, 1) ∧
    getConnection (fun _ => true) ⟨false, 7⟩ 3 = (.ok (), ⟨true, 7⟩, 5) :=
  ⟨circuit_breaker_amended.2.1 (fun _ => false) ⟨false, 5⟩ 0 rfl rfl,
   circuit_breaker_amended.2.2.1 (fun _ => true) ⟨false, 7⟩ 3 rfl rfl rfl⟩

/-- Witness for C10's general part at the concrete database `[sampleFr]`. -/
theorem implicit_fallback_highest_version_witness :
    activeDefaultQ [sampleFr] "welcome".data "de".data "o1".data = none ∧
    activeCands [sampleFr] "welcome".data "o1".data ≠ [] ∧
    ∃ r, getActiveTemplate [sampleFr] "welcome".data "de".data (some "o1".data) =
        .ok (some r) ∧
      r ∈ activeCands [sampleFr] "welcome".data "o1".data ∧
      ∀ u ∈ activeCands [sampleFr] "welcome".data "o1".data, u.version ≤ r.version :=
  ⟨by decide, by decide,
    implicit_fallback_highest_version.1 [sampleFr] "welcome".data "de".data "o1".data
      (by decide) (by decide) (by decide)⟩

theorem stripPre_append (p l : Str) : stripPre p (p ++ l) = some l := by
  induction p with
  | nil => rfl
  | cons c cs ih => simp [stripPre, ih]

theorem containsSub_of_stripPre {pat s r : Str} (h : stripPre pat s = some r) :
    containsSub pat s = true := by
  unfold containsSub
  cases s with
  | nil => simp [splitAtSub, h]
  | cons c cs => simp [splitAtSub, h]

theorem containsSub_append_self (p l : Str) : containsSub p (p ++ l) = true :=
  containsSub_of_stripPre (stripPre_append p l)

theorem containsSub_cons (pat : Str) (c : Char) (s : Str) (h : containsSub pat s = true) :
    containsSub pat (c :: s) = true := by
  unfold containsSub at h ⊢
  cases hs : stripPre pat (c :: s) with
  | some r => simp [splitAtSub, hs]
  | none =>
    cases hsp : splitAtSub pat s with
    | none => rw [hsp] at h; exact absurd h (by simp)
    | some br => simp [splitAtSub, hs, hsp]

theorem containsSub_append_left (pat l s : Str) (h : containsSub pat s = true) :
    containsSub pat (l ++ s) = true := by
  induction l with
  | nil => exact h
  | cons c cs ih => exact containsSub_cons pat c (cs ++ s) ih

theorem runVarSegs_unbound (vars : Vars) (esc : Bool) (name : Str) :
    ∀ segs : List VarSeg,
      name ∈ varSegNames segs → lookupVar vars name = none →
      name ∈ (runVarSegs vars esc segs).2 ∧
        containsSub (varLit name) (runVarSegs vars esc segs).1 = true := by
  intro segs
  induction segs with
  | nil => intro hmem _; exact absurd hmem (List.not_mem_nil name)
  | cons seg rest ih =>
    intro hmem hub
    cases seg with
    | lit c =>
      simp only [varSegNames] at hmem
      obtain ⟨h1, h2⟩ := ih hmem hub
      rcases hX : runVarSegs vars esc rest with ⟨o, m⟩
      rw [hX] at h1 h2
      simp only [runVarSegs, hX]
      exact ⟨h1, containsSub_cons _ c o h2⟩
    | var w =>
      simp only [varSegNames] at hmem
      rcases hX : runVarSegs vars esc rest with ⟨o, m⟩
      simp only [runVarSegs, hX]
      by_cases hw : name = w
      · subst hw
        rw [hub]
        exact ⟨List.mem_cons_self name m, containsSub_append_self (varLit name) o⟩
      · have hmem2 : name ∈ varSegNames rest := by
          rcases List.mem_cons.mp hmem with h | h
          · exact absurd h hw
          · exact h
        obtain ⟨h1, h2⟩ := ih hmem2 hub
        rw [hX] at h1 h2
        cases hlv : lookupVar vars w with
        | some v => exact ⟨h1, containsSub_append_left _ _ _ h2⟩
        | none => exact ⟨List.mem_cons_of_mem w h1, containsSub_append_left _ _ _ h2⟩

/-- C7: in the variable pass, every plain placeholder `{{name}}` whose
name is unbound contributes `name` to the missing list and survives
verbatim in the output (the literal `{{name}}` text occurs in the result
— it is not blanked); and the spec's concrete example: rendering
`"Hi {{name}}"` with no bindings returns the input text unchanged with
missing set `{name}`. -/
theorem missing_variable_detection :
    (∀ (content : Str) (vars : Vars) (esc : Bool) (name : Str),
      name ∈ varNamesOf content → lookupVar vars name = none →
      name ∈ (processVariables content vars esc).2 ∧
        containsSub (varLit name) (processVariables content vars esc).1 = true) ∧
    render hiNameTemplate [] = .ok (hiNameTemplate, ["name".data]) := by
  constructor
  · intro content vars esc name hmem hub
    exact runVarSegs_unbound vars esc name (scanVarSegs content) hmem hub
  · decide

/-- Witness for C7's general part at the spec's own example. -/
theorem missing_variable_detection_witness :
    "name".data ∈ varNamesOf hiNameTemplate ∧
    "name".data ∈ (processVariables hiNameTemplate [] true).2 ∧
    containsSub (varLit "name".data) (processVariables hiNameTemplate [] true).1 = true :=
  ⟨by decide,
   (missing_variable_detection.1 hiNameTemplate [] true "name".data (by decide) rfl).1,
   (missing_variable_detection.1 hiNameTemplate [] true "name".data (by decide) rfl).2⟩

theorem spanWord_append (name : Str) (hw : name.all isWordChar = true) (c : Char)
    (hc : isWordChar c = false) (rest : Str) :
    spanWord (name ++ c :: rest) = (name, c :: rest) := by
  induction name with
  | nil => simp [spanWord, hc]
  | cons a as ih =>
    simp only [List.all_cons, Bool.and_eq_true] at hw
    simp [spanWord, hw.1, ih hw.2]

theorem name_isEmpty_false {name : Str} (hne : name ≠ []) : name.isEmpty = false := by
  cases name with
  | nil => exact absurd rfl hne
  | cons a as => rfl

theorem matchCondAt_block (name body : Str) (hw : name.all isWordChar = true)
    (hne : name ≠ []) (hb : splitAtSub closeIf (body ++ closeIf) = some (body, [])) :
    matchCondAt (condBlock name body) = some (name, body, []) := by
  have hsw : spanWord (name ++ (varClose ++ (body ++ closeIf))) =
      (name, varClose ++ (body ++ closeIf)) := by
    have := spanWord_append name hw rbrace (by decide) (rbrace :: (body ++ closeIf))
    simpa [varClose] using this
  have hsp : stripPre varClose (varClose ++ (body ++ closeIf)) = some (body ++ closeIf) :=
    stripPre_append varClose (body ++ closeIf)
  unfold matchCondAt condBlock
  rw [List.append_assoc, List.append_assoc, List.append_assoc, stripPre_append]
  simp only [hsw, name_isEmpty_false hne, Bool.false_eq_true, if_false, hsp, hb]

theorem scanCondAux_nil (f : Nat) : scanCondAux f [] = [] := by
  cases f <;> rfl

theorem scanCondSegs_block (name body : Str) (hw : name.all isWordChar = true)
    (hne : name ≠ []) (hb : splitAtSub closeIf (body ++ closeIf) = some (body, [])) :
    scanCondSegs (condBlock name body) = [.condIf name body] := by
  have hm := matchCondAt_block name body hw hne hb
  unfold scanCondSegs
  cases hc : condBlock name body with
  | nil =>
    exfalso
    have hlen : (condBlock name body).length ≠ 0 := by
      unfold condBlock
      simp [openIf]
    rw [hc] at hlen
    exact hlen rfl
  | cons c cs =>
    rw [hc] at hm
    show scanCondAux (cs.length + 1) (c :: cs) = _
    simp [scanCondAux, hm, scanCondAux_nil]

theorem processConditionals_block (vars : Vars) (name body : Str)
    (hw : name.all isWordChar = true) (hne : name ≠ [])
    (hb : splitAtSub closeIf (body ++ closeIf) = some (body, [])) :
    processConditionals (condBlock name body) vars =
      match lookupVar vars name with
      | some v => (if condValueKeeps v then body else [], [])
      | none => ([], [name]) := by
  unfold processConditionals
  rw [scanCondSegs_block name body hw hne hb]
  cases hlv : lookupVar vars name with
  | some v => simp [runCondSegs, hlv]
  | none => simp [runCondSegs, hlv]

/-- C8: for a conditional block `{{#if name}}body{{/if}}` (well-formed:
the name is a non-empty word, the body does not itself contain the close
tag), the conditional pass keeps the body exactly when the bound string
value is none of `""`, `"false"`, `"0"` (truthiness), removes the block
without recording anything for a bound falsy value, and removes the block
recording `name` as missing when it is unbound; plus the spec's two
concrete renders. -/
theorem conditional_truthiness :
    (∀ (vars : Vars) (name body s : Str),
      name.all isWordChar = true → name ≠ [] →
      splitAtSub closeIf (body ++ closeIf) = some (body, []) →
      lookupVar vars name = some (.str s) →
      processConditionals (condBlock name body) vars =
        (if s = [] ∨ s = "false".data ∨ s = "0".data then [] else body, [])) ∧
    (∀ (vars : Vars) (name body : Str),
      name.all isWordChar = true → name ≠ [] →
      splitAtSub closeIf (body ++ closeIf) = some (body, []) →
      lookupVar vars name = none →
      processConditionals (condBlock name body) vars = ([], [name])) ∧
    render ifFlagTemplate [("flag".data, .str "0".data)] = .ok ([], []) ∧
    render ifFlagTemplate [("flag".data, .str "yes".data)] = .ok ("X".data, []) := by
  refine ⟨?_, ?_, by decide, by decide⟩
  · intro vars name body s hw hne hb hlv
    rw [processConditionals_block vars name body hw hne hb, hlv]
    by_cases hd : s = [] ∨ s = "false".data ∨ s = "0".data
    · rw [if_pos hd]
      have hck : condValueKeeps (.str s) = false := by
        rcases hd with h | h | h <;> subst h <;> decide
      simp [hck]
    · rw [if_neg hd]
      push_neg at hd
      have h1 : s.isEmpty = false := name_isEmpty_false hd.1
      have h2 : (s == "false".data) = false := beq_eq_false_iff_ne.mpr hd.2.1
      have h3 : (s == "0".data) = false := beq_eq_false_iff_ne.mpr hd.2.2
      have h4 : (s == "".data) = false := beq_eq_false_iff_ne.mpr hd.1
      have hck : condValueKeeps (.str s) = true := by
        simp [condValueKeeps, pyTruthy, h1, h2, h3, h4]
      simp [hck]
  · intro vars name body hw hne hb hlv
    rw [processConditionals_block vars name body hw hne hb, hlv]

/-- Witness for C8's general parts: the spec's `flag = "0"` example
through the conditional pass, and an unbound `flag`. -/
theorem conditional_truthiness_witness :
    processConditionals (condBlock "flag".data "X".data)
        [("flag".data, PyValue.str "0".data)] =
      (if ("0".data : Str) = [] ∨ "0".data = "false".data ∨ "0".data = "0".data
        then ([] : Str) else "X".data, []) ∧
    processConditionals (condBlock "flag".data "X".data) [] = ([], ["flag".data]) :=
  ⟨conditional_truthiness.1 [("flag".data, .str "0".data)] "flag".data "X".data "0".data
      (by decide) (by decide) (by decide) rfl,
   conditional_truthiness.2.1 [] "flag".data "X".data
      (by decide) (by decide) (by decide) rfl⟩

theorem clearOther_id (t u : TRec) : (clearOther t u).id = u.id := by
  unfold clearOther
  split <;> rfl

theorem activated_notin_group (t : TRec) (now : Nat) (u : TRec) (hid : u.id ≠ t.id) :
    decide ((setActiveDefault t now (clearOther t u)).code = t.code ∧
      (setActiveDefault t now (clearOther t u)).language = t.language ∧
      (setActiveDefault t now (clearOther t u)).organization = t.organization ∧
      (setActiveDefault t now (clearOther t u)).is_default = true) = false := by
  have hsd : setActiveDefault t now (clearOther t u) = clearOther t u := by
    unfold setActiveDefault
    rw [if_neg]
    rw [clearOther_id]
    exact hid
  rw [hsd]
  unfold clearOther
  split
  · simp
  · rename_i h
    simp only [decide_eq_false_iff_not]
    rintro ⟨hc, hl, ho, hd⟩
    exact h ⟨hc, hl, hd, ho, hid⟩

theorem activated_target_group (t : TRec) (now : Nat) :
    decide ((setActiveDefault t now (clearOther t t)).code = t.code ∧
      (setActiveDefault t now (clearOther t t)).language = t.language ∧
      (setActiveDefault t now (clearOther t t)).organization = t.organization ∧
      (setActiveDefault t now (clearOther t t)).is_default = true) = true := by
  have hco : clearOther t t = t := by
    unfold clearOther
    rw [if_neg]
    rintro ⟨_, _, _, _, hid⟩
    exact hid rfl
  rw [hco]
  unfold setActiveDefault
  rw [if_pos rfl]
  simp

theorem filter_activated_none (t : TRec) (now : Nat) :
    ∀ l : List TRec, (∀ u ∈ l, u.id ≠ t.id) →
      (l.map fun u => setActiveDefault t now (clearOther t u)).filter
        (fun u => decide (u.code = t.code ∧ u.language = t.language ∧
          u.organization = t.organization ∧ u.is_default = true)) = [] := by
  intro l
  induction l with
  | nil => intro _; rfl
  | cons u rest ih =>
    intro h
    simp only [List.map_cons, List.filter_cons]
    rw [activated_notin_group t now u (h u (List.mem_cons_self u rest))]
    exact ih fun v hv => h v (List.mem_cons_of_mem u hv)

theorem activate_map_defaults (t : TRec) (now : Nat) :
    ∀ db : List TRec, (db.map TRec.id).Nodup → t ∈ db →
      ((db.map fun u => setActiveDefault t now (clearOther t u)).filter
        (fun u => decide (u.code = t.code ∧ u.language = t.language ∧
          u.organization = t.organization ∧ u.is_default = true))).map TRec.id = [t.id] := by
  intro db
  induction db with
  | nil => intro _ hmem; exact absurd hmem (List.not_mem_nil t)
  | cons h rest ih =>
    intro hnd hmem
    rw [List.map_cons, List.nodup_cons] at hnd
    simp only [List.map_cons, List.filter_cons]
    rcases List.mem_cons.mp hmem with he | he
    · subst he
      rw [activated_target_group t now]
      rw [filter_activated_none t now rest ?_]
      · have hidt : (setActiveDefault t now (clearOther t t)).id = t.id := by
          unfold setActiveDefault
          split <;> exact clearOther_id t t
        simp [hidt]
      · intro u hu hid
        exact hnd.1 (hid ▸ List.mem_map_of_mem TRec.id hu)
    · have hid : h.id ≠ t.id := by
        intro he2
        have : t.id ∈ rest.map TRec.id := List.mem_map_of_mem TRec.id he
        rw [← he2] at this
        exact hnd.1 this
      rw [activated_notin_group t now h hid]
      exact ih hnd.2 he

/-- C5: the claim's reading of default uniqueness versus the declared
constraint.  First conjunct (the discrepancy): a database holding one
default and two further non-default versions of the same
(code, language, organization) group satisfies the claim's invariant —
at most one default, non-default versions free to coexist — yet violates
the code's `unique_together` over (code, language, is_default,
organization), which also forbids two rows with `is_default = false`.
Second conjunct (the part of the claim the operation itself satisfies):
any successful `activate` leaves exactly one default — the activated row
— in the target's (code, language, organization) group. -/
theorem default_uniqueness_constraint :
    (atMostOneDefault [vDefault, vDraft2, vDraft3] = true ∧
      uniqueTogether4 [vDefault, vDraft2, vDraft3] = false) ∧
    (∀ (t : TRec) (db : List TRec) (now : Nat) (db2 : List TRec),
      (db.map TRec.id).Nodup → t ∈ db →
      activateOp t db now = .ok (db2, true) →
      (defaultsInGroup db2 t.code t.language t.organization).map TRec.id = [t.id]) := by
  constructor
  · exact ⟨by decide, by decide⟩
  · intro t db now db2 hnd hmem hact
    unfold activateOp at hact
    by_cases hst : t.status = TStatus.active
    · rw [if_pos hst] at hact
      injection hact with h'
      have := congrArg Prod.snd h'
      exact absurd this (by simp)
    · rw [if_neg hst] at hact
      cases ho : t.organization with
      | none =>
        rw [ho] at hact
        exact absurd hact (by simp)
      | some o =>
        rw [ho] at hact
        injection hact with h'
        have hdb2 : db2 = (db.map (clearOther t)).map (setActiveDefault t now) :=
          (congrArg Prod.fst h').symm
        subst hdb2
        rw [List.map_map]
        unfold defaultsInGroup
        rw [← ho]
        exact activate_map_defaults t now db hnd hmem

/-- Witness for C5's `activate` conjunct: activating draft version 2 in
the three-version group leaves exactly the activated row as default. -/
theorem default_uniqueness_constraint_witness :
    (defaultsInGroup
        (([vDefault, vDraft2, vDraft3].map (clearOther vDraft2)).map
          (setActiveDefault vDraft2 100))
        vDraft2.code vDraft2.language vDraft2.organization).map TRec.id = [vDraft2.id] :=
  default_uniqueness_constraint.2 vDraft2 [vDefault, vDraft2, vDraft3] 100 _
    (by decide) (by decide) rfl

theorem noColon_split :
    ∀ (a b x y : Str), NoColon a → NoColon b →
      a ++ ':' :: x = b ++ ':' :: y → a = b ∧ x = y := by
  intro a
  induction a with
  | nil =>
    intro b x y _ hb h
    cases b with
    | nil =>
      simp only [List.nil_append] at h
      injection h with _ h2
      exact ⟨rfl, h2⟩
    | cons d ds =>
      exfalso
      simp only [List.nil_append, List.cons_append] at h
      injection h with h1 _
      apply hb
      rw [← h1]
      exact List.mem_cons_self ':' ds
  | cons c cs ih =>
    intro b x y ha hb h
    cases b with
    | nil =>
      exfalso
      simp only [List.nil_append, List.cons_append] at h
      injection h with h1 _
      apply ha
      rw [h1]
      exact List.mem_cons_self ':' cs
    | cons d ds =>
      simp only [List.cons_append] at h
      injection h with h1 h2
      have ha2 : NoColon cs := fun hcc => ha (List.mem_cons_of_mem c hcc)
      have hb2 : NoColon ds := fun hcc => hb (List.mem_cons_of_mem d hcc)
      obtain ⟨e1, e2⟩ := ih ds x y ha2 hb2 h2
      rw [h1, e1]
      exact ⟨rfl, e2⟩

theorem mkTemplateKey_inj (o1 c1 l1 o2 c2 l2 : Str)
    (ho1 : NoColon o1) (hc1 : NoColon c1) (ho2 : NoColon o2) (hc2 : NoColon c2)
    (h : mkTemplateKey o1 c1 l1 = mkTemplateKey o2 c2 l2) :
    o1 = o2 ∧ c1 = c2 ∧ l1 = l2 := by
  unfold mkTemplateKey at h
  simp only [List.append_assoc, List.singleton_append] at h
  have h2 := List.append_cancel_left h
  obtain ⟨e1, h3⟩ := noColon_split o1 o2 _ _ ho1 ho2 h2
  obtain ⟨e2, e3⟩ := noColon_split c1 c2 _ _ hc1 hc2 h3
  exact ⟨e1, e2, e3⟩

theorem activeDefaultQ_org (db : List TRec) (code lang org : Str) (t : TRec)
    (h : activeDefaultQ db code lang org = some t) : t.organization = some org := by
  have hmem := firstMaxVersion_mem _ _ h
  rw [List.mem_filter] at hmem
  have h2 := hmem.2
  simp only [decide_eq_true_eq] at h2
  exact h2.2.2.2.2

theorem activeCands_org (db : List TRec) (code org : Str) (t : TRec)
    (h : t ∈ activeCands db code org) : t.organization = some org := by
  rw [activeCands, List.mem_filter] at h
  have h2 := h.2
  simp only [decide_eq_true_eq] at h2
  exact h2.2.2

theorem getActiveTemplate_org (db : List TRec) (code lang org : Str) (t : TRec)
    (h : getActiveTemplate db code lang (some org) = .ok (some t)) :
    t.organization = some org := by
  unfold getActiveTemplate at h
  replace h : (match activeDefaultQ db code lang org with
      | some t0 => Except.ok (some t0)
      | none =>
        match (if lang ≠ enStr then activeDefaultQ db code enStr org else none) with
        | some t0 => Except.ok (some t0)
        | none =>
          Except.ok (firstMaxVersion (activeCands db code org))) = Except.ok (some t) := h
  cases h1 : activeDefaultQ db code lang org with
  | some t0 =>
    rw [h1] at h
    injection h with h2
    injection h2 with h3
    rw [← h3]
    exact activeDefaultQ_org db code lang org t0 h1
  | none =>
    rw [h1] at h
    cases h2 : (if lang ≠ enStr then activeDefaultQ db code enStr org else none) with
    | some t0 =>
      rw [h2] at h
      injection h with h3
      injection h3 with h4
      rw [← h4]
      by_cases hl : lang ≠ enStr
      · rw [if_pos hl] at h2
        exact activeDefaultQ_org db code enStr org t0 h2
      · rw [if_neg hl] at h2
        exact absurd h2 (by simp)
    | none =>
      rw [h2] at h
      injection h with h3
      exact activeCands_org db code org t (firstMaxVersion_mem _ _ h3)

/-- C1 (counterexample): the in-process mirror cache
(`cache_manager.py`) has no notion of an organization: its `get_template`
takes only (code, language) — so the lookup that the claim requires to be
rejected is served — its cache key is `code:language`, and its
database fallback carries no organization filter.  With the database
holding only organization `org-B`'s active default, the org-less lookup
returns `org-B`'s record — which the mirror then serves to every caller,
whatever organization the caller belongs to. -/
theorem tenant_isolation_counterexample :
    (mirrorGetTemplate [recB] emptyMirror "welcome".data enStr).1 =
      some (.fromDb recB) ∧
    recB.organization = some "org-B".data :=
  ⟨by decide, by decide⟩

/-- C1 (amended): tenant isolation does hold for the Redis cache-aside
manager of `views.py`.  A lookup without an organization id returns
absent without touching cache or database; an organization-scoped lookup
returns only records of that organization (given a store whose scoped
keys hold matching records — an invariant every write of this manager
preserves, stated for separator-free key components). -/
theorem tenant_isolation_scoped_tier :
    (∀ (db : List TRec) (cache : KVStore) (code lang : Str) (u : Bool),
      viewsGetTemplate db cache code lang none u = (none, cache)) ∧
    (∀ (db : List TRec) (cache : KVStore) (code lang org : Str) (u : Bool),
      cacheScoped cache → NoColon org → NoColon code → NoColon lang →
      (∀ td, (viewsGetTemplate db cache code lang (some org) u).1 = some td →
        td.organization_id = org) ∧
      cacheScoped (viewsGetTemplate db cache code lang (some org) u).2) := by
  constructor
  · intro db cache code lang u
    rfl
  · intro db cache code lang org u hs ho hc hl
    cases hhit : (if u then lookupKV cache (mkTemplateKey org code lang) else none) with
    | some td0 =>
      have hres : viewsGetTemplate db cache code lang (some org) u = (some td0, cache) := by
        simp [viewsGetTemplate, hhit]
      rw [hres]
      refine ⟨fun td htd => ?_, hs⟩
      injection htd with htd2
      rw [← htd2]
      cases u with
      | false => exact absurd hhit (by simp)
      | true =>
        rw [if_pos rfl] at hhit
        exact hs org code lang td0 ho hc hl hhit
    | none =>
      cases hq : getActiveTemplate db code lang (some org) with
      | error e =>
        have hres : viewsGetTemplate db cache code lang (some org) u = (none, cache) := by
          simp [viewsGetTemplate, hhit, hq]
        rw [hres]
        exact ⟨fun td htd => absurd htd (by simp), hs⟩
      | ok oo =>
        cases oo with
        | none =>
          have hres : viewsGetTemplate db cache code lang (some org) u = (none, cache) := by
            simp [viewsGetTemplate, hhit, hq]
          rw [hres]
          exact ⟨fun td htd => absurd htd (by simp), hs⟩
        | some t =>
          have horg := getActiveTemplate_org db code lang org t hq
          have htdo : (serializeViews t).organization_id = org := by
            simp [serializeViews, horg]
          have hres : viewsGetTemplate db cache code lang (some org) u =
              (some (serializeViews t),
                if u then
                  setKV cache (mkTemplateKey org code lang) (serializeViews t)
                else cache) := by
            simp [viewsGetTemplate, hhit, hq]
          rw [hres]
          constructor
          · intro td htd
            injection htd with htd2
            rw [← htd2]
            exact htdo
          · cases u with
            | false => simpa using hs
            | true =>
              rw [if_pos rfl]
              intro o2 c2 l2 td2 ho2 hc2 hl2 hlook
              simp only [setKV, lookupKV] at hlook
              by_cases hk : mkTemplateKey org code lang = mkTemplateKey o2 c2 l2
              · rw [if_pos hk] at hlook
                injection hlook with hlook2
                obtain ⟨e1, _, _⟩ := mkTemplateKey_inj org code lang o2 c2 l2 ho hc ho2 hc2 hk
                rw [← hlook2, ← e1]
                exact htdo
              · rw [if_neg hk] at hlook
                exact hs o2 c2 l2 td2 ho2 hc2 hl2 hlook

/-- Witness for C1's amended theorem: the org-less lookup is rejected, and
an `org-A`-scoped lookup against a database holding only `org-B`'s record
leaves the (empty, trivially scoped) store scoped. -/
theorem tenant_isolation_scoped_tier_witness :
    viewsGetTemplate [recB] [] "welcome".data enStr none true = (none, []) ∧
    cacheScoped ((viewsGetTemplate [recB] [] "welcome".data enStr
      (some "org-A".data) true).2) :=
  ⟨tenant_isolation_scoped_tier.1 [recB] [] "welcome".data enStr true,
   (tenant_isolation_scoped_tier.2 [recB] [] "welcome".data enStr "org-A".data true
      (by intro o c l td _ _ _ hlk; exact absurd hlk (by simp [lookupKV]))
      (by unfold NoColon; decide) (by unfold NoColon; decide)
      (by unfold NoColon; decide)).2⟩

end TemplateMan




